import Mathlib

set_option maxHeartbeats 1000000

namespace O9

/-- JavaScript truthiness for an optional string value: `undefined`/`null` and
the empty string are falsy, every other string is truthy. -/
def truthy : Option String → Bool
  | none => false
  | some s => !(s == "")

/-- A test step as stored and displayed by the frontend
(`TestStepExecutor` / `TestCaseDetail`). -/
structure Step where
  id : Nat
  step_number : Int
  description : Option String := none
  expected_result : Option String := none
  selenium_script : Option String := none
  selenium_script_json : Option String := none
  execution_status : Option String := none
  deriving Repr, DecidableEq

/-- `TestCaseDetail.sortedSteps`: the stored steps sorted ascending by
`step_number` via the comparator `(a, b) => a.step_number - b.step_number`. -/
def sortedSteps (steps : List Step) : List Step :=
  List.insertionSort (fun a b => a.step_number ≤ b.step_number) steps

instance : IsTotal Step (fun a b => a.step_number ≤ b.step_number) :=
  ⟨fun a b => Int.le_total a.step_number b.step_number⟩

instance : IsTrans Step (fun a b => a.step_number ≤ b.step_number) :=
  ⟨fun _ _ _ hab hbc => le_trans hab hbc⟩

/-- JavaScript truthiness of a plain string value: only the empty string is
falsy. -/
def truthyStr (s : String) : Bool := !(s == "")

/-- Does the character list start with the given needle
(`String.prototype.startsWith` on char lists)? -/
def startsWithB : List Char → List Char → Bool
  | [], _ => true
  | _ :: _, [] => false
  | a :: as, b :: bs => a == b && startsWithB as bs

/-- Substring containment on char lists, scanning every suffix
(the semantics of `String.prototype.includes`). -/
def hasSub (needle : List Char) : List Char → Bool
  | [] => startsWithB needle []
  | c :: t => startsWithB needle (c :: t) || hasSub needle t

/-- `haystack.includes(needle)` on strings. -/
def strIncludes (haystack needle : String) : Bool :=
  hasSub needle.data haystack.data

/-- The browser `sessionStorage`: an ordered key/value association. -/
def Store := List (String × String)

/-- `sessionStorage.getItem(k)`: the stored value, or null (`none`). -/
def getItem (st : Store) (k : String) : Option String :=
  match st with
  | [] => none
  | (k', v) :: t => if k' == k then some v else getItem t k

/-- `sessionStorage.setItem(k, v)`: replace an existing entry or append. -/
def setItem (st : Store) (k v : String) : Store :=
  match st with
  | [] => [(k, v)]
  | (k', v') :: t => if k' == k then (k, v) :: t else (k', v') :: setItem t k v

/-- Outcome of the mock login form submission. -/
inductive LoginResult where
  | redirectTo (page : String)
  | errorShown
  deriving Repr, DecidableEq

/-- `handleLogin` from `mock-o9-website/js/app.js`: accepts any non-empty
username/password pair, stores `o9-username` and `o9-logged-in` and redirects
to the dashboard; otherwise shows the error message and leaves storage alone. -/
def handleLogin (username password : String) (st : Store) : Store × LoginResult :=
  if truthyStr username && truthyStr password then
    (setItem (setItem st "o9-username" username) "o9-logged-in" "true",
     .redirectTo "dashboard.html")
  else
    (st, .errorShown)

/-- `checkAuth` from `mock-o9-website/js/app.js`, run on every page load:
returns the redirect target (if any) decided from the stored login flag and
the current page path. -/
def checkAuth (st : Store) (currentPage : String) : Option String :=
  let isLoggedIn := truthy (getItem st "o9-logged-in")
  if !isLoggedIn && !(strIncludes currentPage "index.html") && !(currentPage == "/")
  then some "index.html"
  else none

/-- The value a JavaScript bracket lookup with a falsy-fallback default
(`table[key] || defaultValue`) can produce on an object literal: an own
property or default string, or a truthy member inherited from
`Object.prototype` (the lookup consults the prototype chain, and `||`
passes a truthy inherited function or object through unchanged). -/
inductive JsLookupResult where
  | str (s : String)
  | inherited (name : String)
  deriving Repr, DecidableEq

/-- The property names every JavaScript object literal inherits from
`Object.prototype`: looking any of these up on the colors table yields a
truthy function or object rather than `undefined`. -/
def protoProps : List String :=
  ["constructor", "hasOwnProperty", "isPrototypeOf", "propertyIsEnumerable",
   "toLocaleString", "toString", "valueOf", "__defineGetter__",
   "__defineSetter__", "__lookupGetter__", "__lookupSetter__", "__proto__"]

/-- `getStatusColor` from `TestStepExecutor`: style classes for a step's
execution status via `colors[status] || gray`, with `not_run` substituted
for a falsy status. Own keys shadow the prototype; a status naming an
`Object.prototype` member yields that inherited truthy value; anything else
falls to the gray default. -/
def getStatusColor (execution_status : Option String) : JsLookupResult :=
  let status := match execution_status with
    | some s => if s == "" then "not_run" else s
    | none => "not_run"
  if status == "passed" then .str "bg-green-100 text-green-800"
  else if status == "failed" then .str "bg-red-100 text-red-800"
  else if status == "error" then .str "bg-yellow-100 text-yellow-800"
  else if status == "running" then .str "bg-blue-100 text-blue-800"
  else if status == "not_run" then .str "bg-gray-100 text-gray-800"
  else if status ∈ protoProps then .inherited status
  else .str "bg-gray-100 text-gray-800"

/-- `getStepStatusBadgeColor` from `TestCaseDetail`: style classes for a
step status badge via `colors[status] || gray`, keyed on `not_started`,
`passed`, `failed` and `blocked`; a status naming an `Object.prototype`
member yields that inherited truthy value; anything else falls to the gray
default. -/
def getStepStatusBadgeColor (status : String) : JsLookupResult :=
  if status == "not_started" then .str "bg-gray-100 text-gray-800"
  else if status == "passed" then .str "bg-green-100 text-green-800"
  else if status == "failed" then .str "bg-red-100 text-red-800"
  else if status == "blocked" then .str "bg-yellow-100 text-yellow-800"
  else if status ∈ protoProps then .inherited status
  else .str "bg-gray-100 text-gray-800"

/-- The step execution status enumeration claimed by the specification. -/
def claimedStatusEnum : List String := ["not_run", "running", "passed", "failed", "error"]

/-- A server-to-client message as received on the execution WebSocket, with
the fields the `TestStepExecutor` handler reads (`data.type`, `data.status`,
`data.message`, `data.action`, `data.image`, `data.error`); a field the
message lacks is `none`. -/
structure WsMsg where
  type : String
  status : Option String := none
  message : Option String := none
  action : Option String := none
  image : Option String := none
  error : Option String := none
  deriving Repr, DecidableEq

/-- JavaScript template-literal interpolation of a possibly-undefined string. -/
def jsInterp : Option String → String
  | some s => s
  | none => "undefined"

/-- The text chosen for a progress message:
`data.message || data.action || ""` with JavaScript falsy fallback. -/
def progressText (message action : Option String) : String :=
  if truthy message then jsInterp message
  else if truthy action then jsInterp action
  else ""

/-- Definition following the specification words for C4: the displayed text
is the message field, or the action field when the message field is absent. -/
def claimedProgressText (message action : Option String) : String :=
  match message with
  | some s => s
  | none =>
    match action with
    | some a => a
    | none => ""

/-- The client-side view of one step run in `TestStepExecutor`: the React
state touched by the WebSocket handler, the status values reported upward
through `onStatusUpdate`, the alert texts surfaced to the user, and whether
`websocket.close()` has been called. -/
structure ClientState where
  isRunning : Bool
  progressMsg : String
  screenshotSrc : Option String
  statusReports : List (Option String)
  alerts : List String
  wsClosed : Bool
  deriving Repr, DecidableEq

/-- The client state right after `handleRunStep` starts a run:
running, progress cleared, screenshot cleared, socket open. -/
def initialClientState : ClientState :=
  { isRunning := true, progressMsg := "", screenshotSrc := none,
    statusReports := [], alerts := [], wsClosed := false }

/-- `websocket.onmessage` from `TestStepExecutor`: dispatches on `data.type`
through the if/else-if chain and updates the client state accordingly. -/
def onMessage (st : ClientState) (d : WsMsg) : ClientState :=
  if d.type == "status_update" then
    { st with statusReports := st.statusReports ++ [d.status] }
  else if d.type == "progress" then
    { st with progressMsg := progressText d.message d.action }
  else if d.type == "screenshot" then
    { st with screenshotSrc := some ("data:image/png;base64," ++ jsInterp d.image) }
  else if d.type == "execution_complete" then
    { st with
      isRunning := false
      progressMsg := ""
      statusReports := st.statusReports ++ [d.status]
      wsClosed := true }
  else if d.type == "execution_error" then
    { st with
      isRunning := false
      progressMsg := ""
      alerts := st.alerts ++ ["Execution error: " ++ jsInterp d.error]
      wsClosed := true }
  else
    st

/-- Event delivery on the run socket: messages are handed to `onmessage` in
arrival order while the socket is open; once `websocket.close()` has been
called, no further message is processed. -/
def deliverAll (st : ClientState) : List WsMsg → ClientState
  | [] => st
  | d :: rest => if st.wsClosed then st else deliverAll (onMessage st d) rest

/-- Is the message one of the two terminal kinds? -/
def isTerminalMsg (d : WsMsg) : Bool :=
  d.type == "execution_complete" || d.type == "execution_error"

/-- Modelled from the spec: one structured automation command of a stored
command array together with the outcome the automation driver produced for
it — the backend command dispatcher (`app/services/selenium_service.py`) is
not under src/. `ok` is whether the dispatch succeeded and `artifact` the
screenshot payload for screenshot-capturing actions. -/
structure CmdRun where
  action : String
  ok : Bool
  artifact : Option String := none
  deriving Repr, DecidableEq

/-- An event emitted by an execution session, tagged with its sequence
number. -/
inductive SEvent where
  | progressEv (seq : Nat) (text : String)
  | screenshotEv (seq : Nat) (image : String)
  | completeEv (seq : Nat) (status : String)
  | errorEv (seq : Nat) (errText : String)
  deriving Repr, DecidableEq

/-- The sequence number carried by an event. -/
def SEvent.seqOf : SEvent → Nat
  | .progressEv n _ => n
  | .screenshotEv n _ => n
  | .completeEv n _ => n
  | .errorEv n _ => n

/-- Is the event a terminal event (`execution_complete` or
`execution_error`)? -/
def SEvent.isTerminalEv : SEvent → Bool
  | .completeEv _ _ => true
  | .errorEv _ _ => true
  | _ => false

/-- Modelled from the spec: the session state machine emission loop — the
backend session runner (`app/websocket/test_execution.py`) is not under
src/. Starting from sequence number `n` it emits, per command, a progress
event before dispatch and a screenshot event after a capturing dispatch,
stopping at the first failed command. Returns the events, the next sequence
number, and whether every command succeeded. -/
def emitRun : Nat → List CmdRun → List SEvent × Nat × Bool
  | n, [] => ([], n, true)
  | n, c :: rest =>
    if c.ok then
      match c.artifact with
      | some img =>
        (.progressEv n c.action :: .screenshotEv (n + 1) img :: (emitRun (n + 2) rest).1,
          (emitRun (n + 2) rest).2.1, (emitRun (n + 2) rest).2.2)
      | none =>
        (.progressEv n c.action :: (emitRun (n + 1) rest).1,
          (emitRun (n + 1) rest).2.1, (emitRun (n + 1) rest).2.2)
    else
      ([.progressEv n c.action], n + 1, false)

/-- The sequence number following the last emitted progress or screenshot
event of a run. -/
def finalSeq (cmds : List CmdRun) : Nat := (emitRun 0 cmds).2.1

/-- Did every command of the run succeed? -/
def runPassed (cmds : List CmdRun) : Bool := (emitRun 0 cmds).2.2

/-- The terminal event a session emits: `execution_error` on an
infrastructure failure, otherwise `execution_complete` carrying passed or
failed. -/
def sessionTerminal (cmds : List CmdRun) (infraFailure : Option String) : SEvent :=
  match infraFailure with
  | some msg => .errorEv (finalSeq cmds) msg
  | none => .completeEv (finalSeq cmds) (if runPassed cmds then "passed" else "failed")

/-- Modelled from the spec: the full event trace of one execution session —
the per-command events followed by the single terminal event, an
`execution_error` when an infrastructure failure occurred and otherwise an
`execution_complete` carrying passed or failed. -/
def sessionTrace (cmds : List CmdRun) (infraFailure : Option String) : List SEvent :=
  (emitRun 0 cmds).1 ++ [sessionTerminal cmds infraFailure]

/-- The WebSocket connection `handleRunStep` opens for one step run: the
endpoint URL and the messages the client sends over it after opening. -/
structure RunConnection where
  url : String
  sentMessages : List String
  deriving Repr, DecidableEq

/-- The execute-step WebSocket URL built by `handleRunStep`:
protocol, host, and the step id embedded in the path. -/
def wsExecuteStepUrl (protocol host : String) (stepId : Nat) : String :=
  protocol ++ "//" ++ host ++ "/ws/execute-step/" ++ toString stepId

/-- `handleRunStep` from `TestStepExecutor`: opens a WebSocket to the
execute-step endpoint for the step id; `onopen` only logs, so the client
sends no message over the socket. -/
def handleRunStepConnection (protocol host : String) (step : Step) : RunConnection :=
  { url := wsExecuteStepUrl protocol host step.id, sentMessages := [] }

/-- The Run Step button in `TestStepExecutor` is rendered only when
`step.selenium_script_json` is truthy. -/
def runButtonVisible (step : Step) : Bool :=
  truthy step.selenium_script_json

/-- Modelled from the spec: server-side resolution of the effective command
sequence — the backend (`app/websocket/test_execution.py`) is not under
src/, and its module documentation states that step 1 (the login step) is
automatically prepended to all other steps. -/
def effectiveCommands (loginCmds targetCmds : List CmdRun) (targetStepNumber : Int) : List CmdRun :=
  if targetStepNumber == 1 then targetCmds else loginCmds ++ targetCmds

/-- The opening brace character. -/
def lbrace : Char := Char.ofNat 123

/-- The closing brace character. -/
def rbrace : Char := Char.ofNat 125

/-- One stored command record in the §6 wire format: an ordered flat record
of string-valued fields (a required action plus target, value, description). -/
abbrev JCommand := List (String × String)

/-- Escape one character as inside a JSON string literal. -/
def escChar (c : Char) : List Char :=
  if c = '"' then ['\\', '"']
  else if c = '\\' then ['\\', '\\']
  else if c = '\n' then ['\\', 'n']
  else if c = '\t' then ['\\', 't']
  else if c = '\r' then ['\\', 'r']
  else [c]

/-- Escape a character list as the body of a JSON string literal. -/
def escapeChars : List Char → List Char
  | [] => []
  | c :: t => escChar c ++ escapeChars t

/-- A JSON string literal: quote, escaped body, quote. -/
def quoteStr (s : String) : String :=
  "\"" ++ String.mk (escapeChars s.data) ++ "\""

/-- Join rendered pieces with a comma-newline separator, as stringify with
indent 2 does. -/
def joinComma : List String → String
  | [] => ""
  | [x] => x
  | x :: y :: t => x ++ ",\n" ++ joinComma (y :: t)

/-- One rendered record member at object depth (indent four spaces). -/
def renderMember (f : String × String) : String :=
  "    " ++ quoteStr f.1 ++ ": " ++ quoteStr f.2

/-- One rendered command record at array depth (indent two spaces). -/
def renderCommand (c : JCommand) : String :=
  match c with
  | [] => "  " ++ String.mk [lbrace, rbrace]
  | fs => "  " ++ String.mk [lbrace] ++ "\n" ++ joinComma (fs.map renderMember)
      ++ "\n  " ++ String.mk [rbrace]

/-- Modelled from the spec: `JSON.stringify(commands, null, 2)` on the §6
stored command-array format — the JSON codec is a host built-in, not
repository code. Renders the ordered array of flat string-valued records
with two-space indentation. -/
def stringifyCommands : List JCommand → String
  | [] => "[]"
  | cs => "[\n" ++ joinComma (cs.map renderCommand) ++ "\n]"

/-- Is the character JSON insignificant whitespace? -/
def isWsChar (c : Char) : Bool :=
  c == ' ' || c == '\n' || c == '\t' || c == '\r'

/-- Decode one JSON escape code (the character after a backslash). -/
def unescapeChar (c : Char) : Option Char :=
  if c = '"' then some '"'
  else if c = '\\' then some '\\'
  else if c = 'n' then some '\n'
  else if c = 't' then some '\t'
  else if c = 'r' then some '\r'
  else if c = '/' then some '/'
  else none

/-- Parser state for reading a §6 command array character by character:
where we are in the array/object/string grammar, with the commands, fields
and string characters accumulated so far. -/
inductive PState where
  | beforeArray
  | elemStart (acc : List JCommand) (allowEnd : Bool)
  | memberStart (acc : List JCommand) (fields : List (String × String)) (allowEnd : Bool)
  | inKey (acc : List JCommand) (fields : List (String × String)) (buf : List Char)
  | inKeyEsc (acc : List JCommand) (fields : List (String × String)) (buf : List Char)
  | afterKey (acc : List JCommand) (fields : List (String × String)) (key : List Char)
  | beforeValue (acc : List JCommand) (fields : List (String × String)) (key : List Char)
  | inValue (acc : List JCommand) (fields : List (String × String)) (key : List Char) (buf : List Char)
  | inValueEsc (acc : List JCommand) (fields : List (String × String)) (key : List Char) (buf : List Char)
  | afterMember (acc : List JCommand) (fields : List (String × String))
  | afterElem (acc : List JCommand)
  | afterArray (acc : List JCommand)
  deriving DecidableEq, Repr

/-- One parsing transition on one input character; `none` rejects the
input. -/
def pstep : PState → Char → Option PState
  | .beforeArray, c =>
    if isWsChar c then some .beforeArray
    else if c == '[' then some (.elemStart [] true)
    else none
  | .elemStart acc allowEnd, c =>
    if isWsChar c then some (.elemStart acc allowEnd)
    else if c == lbrace then some (.memberStart acc [] true)
    else if c == ']' && allowEnd then some (.afterArray acc)
    else none
  | .memberStart acc fields allowEnd, c =>
    if isWsChar c then some (.memberStart acc fields allowEnd)
    else if c == '"' then some (.inKey acc fields [])
    else if c == rbrace && allowEnd then some (.afterElem (acc ++ [fields]))
    else none
  | .inKey acc fields buf, c =>
    if c == '"' then some (.afterKey acc fields buf)
    else if c == '\\' then some (.inKeyEsc acc fields buf)
    else some (.inKey acc fields (buf ++ [c]))
  | .inKeyEsc acc fields buf, c =>
    match unescapeChar c with
    | some c' => some (.inKey acc fields (buf ++ [c']))
    | none => none
  | .afterKey acc fields key, c =>
    if isWsChar c then some (.afterKey acc fields key)
    else if c == ':' then some (.beforeValue acc fields key)
    else none
  | .beforeValue acc fields key, c =>
    if isWsChar c then some (.beforeValue acc fields key)
    else if c == '"' then some (.inValue acc fields key [])
    else none
  | .inValue acc fields key buf, c =>
    if c == '"' then
      some (.afterMember acc (fields ++ [(String.mk key, String.mk buf)]))
    else if c == '\\' then some (.inValueEsc acc fields key buf)
    else some (.inValue acc fields key (buf ++ [c]))
  | .inValueEsc acc fields key buf, c =>
    match unescapeChar c with
    | some c' => some (.inValue acc fields key (buf ++ [c']))
    | none => none
  | .afterMember acc fields, c =>
    if isWsChar c then some (.afterMember acc fields)
    else if c == ',' then some (.memberStart acc fields false)
    else if c == rbrace then some (.afterElem (acc ++ [fields]))
    else none
  | .afterElem acc, c =>
    if isWsChar c then some (.afterElem acc)
    else if c == ',' then some (.elemStart acc false)
    else if c == ']' then some (.afterArray acc)
    else none
  | .afterArray acc, c =>
    if isWsChar c then some (.afterArray acc)
    else none

/-- Run the transition function over a character list. -/
def prun : PState → List Char → Option PState
  | st, [] => some st
  | st, c :: t => (pstep st c).bind (fun st' => prun st' t)

/-- Modelled from the spec: `JSON.parse` restricted to the §6 stored
command-array format — the JSON codec is a host built-in, not repository
code. Accepts exactly a whitespace-tolerant array of flat records with
string keys and string values, in order. -/
def parseCommands (s : String) : Option (List JCommand) :=
  match prun .beforeArray s.data with
  | some (.afterArray acc) => some acc
  | _ => none

/-- Modelled from the spec: the textual source-code indicators the command
validator scans the raw stored payload for (import statements,
function/class definitions, and the colon-newline form opening an
indentation-based block) — the backend validator is not under src/. -/
def codeMarkers : List String := ["import ", "def ", "class ", ":\n"]

/-- Does the raw stored payload contain a source-code indicator? -/
def containsCodeMarker (raw : String) : Bool :=
  codeMarkers.any (fun m => strIncludes raw m)

/-- The error taxonomy entry for rejected stored command data. -/
inductive ExecError where
  | validationError
  deriving Repr, DecidableEq

/-- Modelled from the spec: the command validator — the backend validator is
not under src/. Scans the raw payload for source-code indicators, requires
it to deserialize into an ordered sequence of flat records, and requires
every record to carry an action tag; pure, with failure reported as a
ValidationError. -/
def validateScriptJson (raw : String) : Except ExecError (List JCommand) :=
  if containsCodeMarker raw then .error .validationError
  else
    match parseCommands raw with
    | none => .error .validationError
    | some cmds =>
      if cmds.all (fun c => (c.lookup "action").isSome) then .ok cmds
      else .error .validationError

/-- Modelled from the spec: the server-side step executor — validation runs
first and the automation driver is called only on a validated command array,
one dispatch per command; on validation failure the step fails with the
ValidationError and the driver call trace stays empty. -/
def executeStepServer (raw : String) : Except ExecError Unit × List String :=
  match validateScriptJson raw with
  | .error e => (.error e, [])
  | .ok cmds => (.ok (), cmds.map (fun c => (c.lookup "action").getD ""))

end O9

/-- Claim C6: for every test case, the sequence of steps presented for
execution is the stored list sorted in ascending step_number order — a
permutation of the stored steps, sorted by step_number, for any order in
which storage returns them. -/
theorem sortedSteps_perm_and_sorted (steps : List O9.Step) :
    (O9.sortedSteps steps).Perm steps ∧
      (O9.sortedSteps steps).Sorted (fun a b => a.step_number ≤ b.step_number) := by
  constructor
  · exact List.perm_insertionSort _ steps
  · exact List.sorted_insertionSort _ steps

/-- Claim C9: in the mock target application, on any page other than the
login page, if sessionStorage has no entry for the key o9-logged-in then
`checkAuth` immediately redirects to index.html. -/
theorem checkAuth_redirects_unauthenticated (st : O9.Store) (path : String)
    (hkey : O9.getItem st "o9-logged-in" = none)
    (hpage : O9.strIncludes path "index.html" = false)
    (hroot : path ≠ "/") :
    O9.checkAuth st path = some "index.html" := by
  unfold O9.checkAuth
  rw [hkey, hpage]
  simp only [O9.truthy, Bool.not_false, Bool.true_and]
  have : (path == "/") = false := by
    simpa using hroot
  rw [this]
  simp

/-- Witness for C9: the empty storage on the dashboard page redirects to
the login page. -/
theorem checkAuth_redirects_unauthenticated_witness :
    O9.getItem [] "o9-logged-in" = none ∧
      O9.strIncludes "/dashboard.html" "index.html" = false ∧
      O9.checkAuth [] "/dashboard.html" = some "index.html" :=
  ⟨rfl, by decide,
    checkAuth_redirects_unauthenticated [] "/dashboard.html" rfl (by decide) (by decide)⟩

/-- Claim C10: the mock login succeeds — storing o9-username and
o9-logged-in and redirecting to the dashboard — exactly when both submitted
fields are non-empty; otherwise the error message is shown and sessionStorage
is left unchanged, so no partial authentication state is created. -/
theorem handleLogin_success_iff (u p : String) (st : O9.Store) :
    (((O9.handleLogin u p st).2 = .redirectTo "dashboard.html" ∧
        (O9.handleLogin u p st).1 =
          O9.setItem (O9.setItem st "o9-username" u) "o9-logged-in" "true")
      ↔ (u ≠ "" ∧ p ≠ "")) ∧
    (u = "" ∨ p = "" → O9.handleLogin u p st = (st, .errorShown)) := by
  constructor
  · unfold O9.handleLogin O9.truthyStr
    by_cases hu : u = "" <;> by_cases hp : p = "" <;>
      simp [hu, hp]
  · intro h
    unfold O9.handleLogin O9.truthyStr
    rcases h with h | h <;> simp [h]

/-- Witness for C10: a concrete successful login and a concrete rejected
login with an empty password. -/
theorem handleLogin_success_iff_witness :
    ((O9.handleLogin "alice" "pw" []).2 = .redirectTo "dashboard.html" ∧
        (O9.handleLogin "alice" "pw" []).1 =
          O9.setItem (O9.setItem [] "o9-username" "alice") "o9-logged-in" "true") ∧
      O9.handleLogin "alice" "" [] = ([], .errorShown) :=
  ⟨(handleLogin_success_iff "alice" "pw" []).1.mpr ⟨by decide, by decide⟩,
    (handleLogin_success_iff "alice" "" []).2 (Or.inr rfl)⟩

/-- Counterexample for C7: the UI status-to-style mappings are not defined
exactly on the claimed enumeration with a single default outside it —
`getStepStatusBadgeColor` gives blocked, outside the enumeration, a
dedicated non-default style, and both mappings return a truthy inherited
`Object.prototype` member (not the default) for a status like constructor. -/
theorem getStepStatusBadgeColor_blocked_cex :
    ("blocked" ∉ O9.claimedStatusEnum ∧
      O9.getStepStatusBadgeColor "blocked" = .str "bg-yellow-100 text-yellow-800" ∧
      O9.getStepStatusBadgeColor "blocked" ≠ .str "bg-gray-100 text-gray-800") ∧
    ("constructor" ∉ O9.claimedStatusEnum ∧
      O9.getStatusColor (some "constructor") = .inherited "constructor" ∧
      O9.getStatusColor (some "constructor") ≠ .str "bg-gray-100 text-gray-800") := by
  refine ⟨⟨by decide, by decide, by decide⟩, by decide, by decide, by decide⟩

/-- Claim C7 (amended): the TestStepExecutor mapping `getStatusColor` has
dedicated entries exactly for not_run, running, passed, failed, error, and
the TestCaseDetail badge mapping `getStepStatusBadgeColor` exactly for
not_started, passed, failed, blocked; outside its key set each bracket
lookup returns the truthy inherited value for an `Object.prototype` property
name, and the single gray default for every other string. -/
theorem statusColor_maps_characterised :
    (O9.getStatusColor (some "passed") = .str "bg-green-100 text-green-800" ∧
      O9.getStatusColor (some "failed") = .str "bg-red-100 text-red-800" ∧
      O9.getStatusColor (some "error") = .str "bg-yellow-100 text-yellow-800" ∧
      O9.getStatusColor (some "running") = .str "bg-blue-100 text-blue-800" ∧
      O9.getStatusColor (some "not_run") = .str "bg-gray-100 text-gray-800" ∧
      O9.getStatusColor none = .str "bg-gray-100 text-gray-800") ∧
    (∀ s : String, s ∉ O9.claimedStatusEnum → s ∉ O9.protoProps →
      O9.getStatusColor (some s) = .str "bg-gray-100 text-gray-800") ∧
    (∀ s ∈ O9.protoProps, O9.getStatusColor (some s) = .inherited s) ∧
    (O9.getStepStatusBadgeColor "not_started" = .str "bg-gray-100 text-gray-800" ∧
      O9.getStepStatusBadgeColor "passed" = .str "bg-green-100 text-green-800" ∧
      O9.getStepStatusBadgeColor "failed" = .str "bg-red-100 text-red-800" ∧
      O9.getStepStatusBadgeColor "blocked" = .str "bg-yellow-100 text-yellow-800") ∧
    (∀ s : String, s ∉ ["not_started", "passed", "failed", "blocked"] →
      s ∉ O9.protoProps →
      O9.getStepStatusBadgeColor s = .str "bg-gray-100 text-gray-800") ∧
    (∀ s ∈ O9.protoProps, O9.getStepStatusBadgeColor s = .inherited s) := by
  refine ⟨⟨by decide, by decide, by decide, by decide, by decide, by decide⟩,
    ?_, by decide, ⟨by decide, by decide, by decide, by decide⟩, ?_, by decide⟩
  · intro s hs hp
    simp only [O9.claimedStatusEnum, List.mem_cons, List.not_mem_nil, or_false, not_or] at hs
    obtain ⟨h1, h2, h3, h4, h5⟩ := hs
    unfold O9.getStatusColor
    by_cases h0 : s = ""
    · simp [h0]
    · simp only [beq_iff_eq, h0, if_false]
      rw [if_neg (by simpa using h3), if_neg (by simpa using h4),
        if_neg (by simpa using h5), if_neg (by simpa using h2),
        if_neg (by simpa using h1), if_neg hp]
  · intro s hs hp
    simp only [List.mem_cons, List.not_mem_nil, or_false, not_or] at hs
    obtain ⟨h1, h2, h3, h4⟩ := hs
    unfold O9.getStepStatusBadgeColor
    rw [if_neg (by simpa using h1), if_neg (by simpa using h2),
      if_neg (by simpa using h3), if_neg (by simpa using h4), if_neg hp]

/-- Witness for C7 (amended): a status outside both key sets and the
prototype names falls to the shared gray default in both mappings, and a
prototype property name yields the inherited value. -/
theorem statusColor_maps_characterised_witness :
    O9.getStatusColor (some "mystery") = .str "bg-gray-100 text-gray-800" ∧
      O9.getStepStatusBadgeColor "mystery" = .str "bg-gray-100 text-gray-800" ∧
      O9.getStatusColor (some "toString") = .inherited "toString" :=
  ⟨statusColor_maps_characterised.2.1 "mystery" (by decide) (by decide),
    statusColor_maps_characterised.2.2.2.2.1 "mystery" (by decide) (by decide),
    statusColor_maps_characterised.2.2.1 "toString" (by decide)⟩

/-- A closed socket processes no further message. -/
theorem deliverAll_of_closed (st : O9.ClientState) (l : List O9.WsMsg)
    (h : st.wsClosed = true) : O9.deliverAll st l = st := by
  cases l with
  | nil => rfl
  | cons d rest => simp [O9.deliverAll, h]

/-- Delivery splits over list append. -/
theorem deliverAll_append (l₁ l₂ : List O9.WsMsg) (st : O9.ClientState) :
    O9.deliverAll st (l₁ ++ l₂) = O9.deliverAll (O9.deliverAll st l₁) l₂ := by
  induction l₁ generalizing st with
  | nil => rfl
  | cons d rest ih =>
    by_cases h : st.wsClosed = true
    · rw [List.cons_append]
      simp only [O9.deliverAll, h, if_true]
      rw [deliverAll_of_closed st l₂ h]
    · have h' : st.wsClosed = false := by simpa using h
      rw [List.cons_append]
      simp only [O9.deliverAll, h']
      simp only [Bool.false_eq_true, if_false]
      exact ih (O9.onMessage st d)

/-- A non-terminal message leaves the socket state unchanged. -/
theorem onMessage_nonterminal_closed (st : O9.ClientState) (d : O9.WsMsg)
    (h : O9.isTerminalMsg d = false) :
    (O9.onMessage st d).wsClosed = st.wsClosed := by
  unfold O9.isTerminalMsg at h
  rw [Bool.or_eq_false_iff] at h
  obtain ⟨h1, h2⟩ := h
  unfold O9.onMessage
  rw [h1, h2]
  split_ifs <;> simp_all

/-- Delivering only non-terminal messages never closes the socket. -/
theorem deliverAll_nonterminal_closed (l : List O9.WsMsg) (st : O9.ClientState)
    (h : ∀ d ∈ l, O9.isTerminalMsg d = false) :
    (O9.deliverAll st l).wsClosed = st.wsClosed := by
  induction l generalizing st with
  | nil => rfl
  | cons d rest ih =>
    by_cases hc : st.wsClosed = true
    · rw [deliverAll_of_closed st _ hc]
    · have h' : st.wsClosed = false := by simpa using hc
      simp only [O9.deliverAll, h', Bool.false_eq_true, if_false]
      rw [ih (O9.onMessage st d) (fun x hx => h x (List.mem_cons_of_mem d hx)),
        onMessage_nonterminal_closed st d (h d (List.mem_cons_self d rest))]
      exact h'

/-- The handler transition for an `execution_complete` message. -/
theorem onMessage_complete_eq (st : O9.ClientState) (d : O9.WsMsg)
    (h : d.type = "execution_complete") :
    O9.onMessage st d =
      { st with
        isRunning := false
        progressMsg := ""
        statusReports := st.statusReports ++ [d.status]
        wsClosed := true } := by
  unfold O9.onMessage
  rw [h]
  simp

/-- The handler transition for an `execution_error` message. -/
theorem onMessage_error_eq (st : O9.ClientState) (d : O9.WsMsg)
    (h : d.type = "execution_error") :
    O9.onMessage st d =
      { st with
        isRunning := false
        progressMsg := ""
        alerts := st.alerts ++ ["Execution error: " ++ O9.jsInterp d.error]
        wsClosed := true } := by
  unfold O9.onMessage
  rw [h]
  simp


/-- Sequence number of a progress event. -/
theorem seqOf_progressEv (n : Nat) (t : String) : (O9.SEvent.progressEv n t).seqOf = n := rfl

/-- Sequence number of a screenshot event. -/
theorem seqOf_screenshotEv (n : Nat) (t : String) : (O9.SEvent.screenshotEv n t).seqOf = n := rfl

/-- Bounds and ordering for the emission loop: sequence numbers start at the
counter, stay below the returned counter, strictly increase left to right, no
emitted event is terminal, and the success flag holds exactly when every
command succeeded. -/
theorem emitRun_spec (cmds : List O9.CmdRun) (n : Nat) :
    n ≤ (O9.emitRun n cmds).2.1 ∧
    (∀ e ∈ (O9.emitRun n cmds).1,
      n ≤ e.seqOf ∧ e.seqOf < (O9.emitRun n cmds).2.1) ∧
    List.Pairwise (fun a b => a.seqOf < b.seqOf) (O9.emitRun n cmds).1 ∧
    (∀ e ∈ (O9.emitRun n cmds).1, e.isTerminalEv = false) ∧
    ((O9.emitRun n cmds).2.2 = true ↔ ∀ c ∈ cmds, c.ok = true) := by
  induction cmds generalizing n with
  | nil => simp [O9.emitRun]
  | cons c rest ih =>
    by_cases hok : c.ok = true
    · cases hart : c.artifact with
      | some img =>
        obtain ⟨ih1, ih2, ih3, ih4, ih5⟩ := ih (n + 2)
        have hred : O9.emitRun n (c :: rest) =
            (.progressEv n c.action :: .screenshotEv (n + 1) img :: (O9.emitRun (n + 2) rest).1,
              (O9.emitRun (n + 2) rest).2.1, (O9.emitRun (n + 2) rest).2.2) := by
          simp [O9.emitRun, hok, hart]
        rw [hred]
        dsimp only
        refine ⟨by omega, ?_, ?_, ?_, ?_⟩
        · intro e he
          rcases List.mem_cons.mp he with he | he
          · subst he
            simp only [seqOf_progressEv]
            omega
          · rcases List.mem_cons.mp he with he | he
            · subst he
              simp only [seqOf_screenshotEv]
              omega
            · have h2 := ih2 e he
              omega
        · refine List.pairwise_cons.mpr ⟨?_, List.pairwise_cons.mpr ⟨?_, ih3⟩⟩
          · intro b hb
            rcases List.mem_cons.mp hb with hb | hb
            · subst hb
              simp only [seqOf_progressEv, seqOf_screenshotEv]
              omega
            · have h2 := ih2 b hb
              simp only [seqOf_progressEv]
              omega
          · intro b hb
            have h2 := ih2 b hb
            simp only [seqOf_screenshotEv]
            omega
        · intro e he
          rcases List.mem_cons.mp he with he | he
          · subst he
            rfl
          · rcases List.mem_cons.mp he with he | he
            · subst he
              rfl
            · exact ih4 e he
        · rw [ih5]
          constructor
          · intro hall d hd
            rcases List.mem_cons.mp hd with hd | hd
            · subst hd
              exact hok
            · exact hall d hd
          · intro hall d hd
            exact hall d (List.mem_cons_of_mem c hd)
      | none =>
        obtain ⟨ih1, ih2, ih3, ih4, ih5⟩ := ih (n + 1)
        have hred : O9.emitRun n (c :: rest) =
            (.progressEv n c.action :: (O9.emitRun (n + 1) rest).1,
              (O9.emitRun (n + 1) rest).2.1, (O9.emitRun (n + 1) rest).2.2) := by
          simp [O9.emitRun, hok, hart]
        rw [hred]
        dsimp only
        refine ⟨by omega, ?_, ?_, ?_, ?_⟩
        · intro e he
          rcases List.mem_cons.mp he with he | he
          · subst he
            simp only [seqOf_progressEv]
            omega
          · have h2 := ih2 e he
            omega
        · refine List.pairwise_cons.mpr ⟨?_, ih3⟩
          intro b hb
          have h2 := ih2 b hb
          simp only [seqOf_progressEv]
          omega
        · intro e he
          rcases List.mem_cons.mp he with he | he
          · subst he
            rfl
          · exact ih4 e he
        · rw [ih5]
          constructor
          · intro hall d hd
            rcases List.mem_cons.mp hd with hd | hd
            · subst hd
              exact hok
            · exact hall d hd
          · intro hall d hd
            exact hall d (List.mem_cons_of_mem c hd)
    · have hok' : c.ok = false := by simpa using hok
      have hred : O9.emitRun n (c :: rest) =
          ([.progressEv n c.action], n + 1, false) := by
        simp [O9.emitRun, hok']
      rw [hred]
      dsimp only
      refine ⟨by omega, ?_, ?_, ?_, ?_⟩
      · intro e he
        rw [List.mem_singleton] at he
        subst he
        simp only [seqOf_progressEv]
        omega
      · exact List.pairwise_singleton _ _
      · intro e he
        rw [List.mem_singleton] at he
        subst he
        rfl
      · simp only [Bool.false_eq_true, false_iff]
        intro hall
        have hco := hall c (List.mem_cons_self c rest)
        rw [hok'] at hco
        exact Bool.false_ne_true hco

/-- The terminal event of a session is one of the two terminal kinds. -/
theorem sessionTerminal_isTerminal (cmds : List O9.CmdRun) (infra : Option String) :
    (O9.sessionTerminal cmds infra).isTerminalEv = true := by
  cases infra <;> rfl

/-- The terminal event of a session carries the final sequence number. -/
theorem sessionTerminal_seqOf (cmds : List O9.CmdRun) (infra : Option String) :
    (O9.sessionTerminal cmds infra).seqOf = O9.finalSeq cmds := by
  cases infra <;> rfl

/-- Claim C3: within one execution session every progress and screenshot
event carries a monotonically increasing sequence number in dispatch order,
the terminal event is the last (and only terminal) event of the session and
carries the maximal sequence number, and for a successful run that terminal
event is execution_complete with status passed. -/
theorem sessionTrace_ordering (cmds : List O9.CmdRun) (infra : Option String) :
    List.Pairwise (fun a b => a.seqOf < b.seqOf) (O9.sessionTrace cmds infra) ∧
    (O9.sessionTrace cmds infra).getLast? = some (O9.sessionTerminal cmds infra) ∧
    (∀ e ∈ O9.sessionTrace cmds infra,
      e.seqOf ≤ (O9.sessionTerminal cmds infra).seqOf) ∧
    (∀ e ∈ O9.sessionTrace cmds infra,
      e.isTerminalEv = true → e = O9.sessionTerminal cmds infra) ∧
    (infra = none → (∀ c ∈ cmds, c.ok = true) →
      O9.sessionTerminal cmds infra = .completeEv (O9.finalSeq cmds) "passed") := by
  obtain ⟨h1, h2, h3, h4, h5⟩ := emitRun_spec cmds 0
  unfold O9.sessionTrace
  refine ⟨?_, ?_, ?_, ?_, ?_⟩
  · rw [List.pairwise_append]
    refine ⟨h3, List.pairwise_singleton _ _, ?_⟩
    intro a ha b hb
    rw [List.mem_singleton] at hb
    subst hb
    rw [sessionTerminal_seqOf]
    have hb2 := (h2 a ha).2
    unfold O9.finalSeq
    omega
  · exact List.getLast?_concat _
  · intro e hmem
    rcases List.mem_append.mp hmem with hmem | hmem
    · have hb2 := (h2 e hmem).2
      rw [sessionTerminal_seqOf]
      unfold O9.finalSeq
      omega
    · rw [List.mem_singleton] at hmem
      subst hmem
      exact le_refl _
  · intro e hmem ht
    rcases List.mem_append.mp hmem with hmem | hmem
    · have hfalse := h4 e hmem
      rw [hfalse] at ht
      exact absurd ht (by simp)
    · rw [List.mem_singleton] at hmem
      exact hmem
  · intro hi hall
    subst hi
    have hp : O9.runPassed cmds = true := h5.mpr hall
    unfold O9.sessionTerminal
    rw [hp]
    rfl

/-- Witness for C3: a two-command all-success run ends with
execution_complete at the maximal sequence number three. -/
theorem sessionTrace_ordering_witness :
    O9.sessionTerminal [⟨"navigate", true, none⟩, ⟨"screenshot", true, some "img"⟩] none =
      .completeEv 3 "passed" := by
  have h := (sessionTrace_ordering
    [⟨"navigate", true, none⟩, ⟨"screenshot", true, some "img"⟩] none).2.2.2.2
    rfl (by decide)
  exact h.trans (by decide)

/-- Claim C2: the client processes a run as one terminal message — on
execution_complete it reports the carried status through onStatusUpdate, on
execution_error it surfaces the error text without reporting a step status,
in both cases it stops running and closes the socket so that messages after
the terminal one are never processed; and a session emits exactly one
terminal event per run. -/
theorem terminal_event_client_semantics
    (pre post : List O9.WsMsg) (dc de : O9.WsMsg)
    (hpre : ∀ d ∈ pre, O9.isTerminalMsg d = false)
    (hc : dc.type = "execution_complete")
    (he : de.type = "execution_error") :
    (O9.deliverAll O9.initialClientState (pre ++ dc :: post) =
        O9.deliverAll O9.initialClientState (pre ++ [dc]) ∧
      (O9.deliverAll O9.initialClientState (pre ++ [dc])).statusReports =
        (O9.deliverAll O9.initialClientState pre).statusReports ++ [dc.status] ∧
      (O9.deliverAll O9.initialClientState (pre ++ [dc])).alerts =
        (O9.deliverAll O9.initialClientState pre).alerts ∧
      (O9.deliverAll O9.initialClientState (pre ++ [dc])).isRunning = false ∧
      (O9.deliverAll O9.initialClientState (pre ++ [dc])).wsClosed = true) ∧
    (O9.deliverAll O9.initialClientState (pre ++ de :: post) =
        O9.deliverAll O9.initialClientState (pre ++ [de]) ∧
      (O9.deliverAll O9.initialClientState (pre ++ [de])).statusReports =
        (O9.deliverAll O9.initialClientState pre).statusReports ∧
      (O9.deliverAll O9.initialClientState (pre ++ [de])).alerts =
        (O9.deliverAll O9.initialClientState pre).alerts ++
          ["Execution error: " ++ O9.jsInterp de.error] ∧
      (O9.deliverAll O9.initialClientState (pre ++ [de])).isRunning = false ∧
      (O9.deliverAll O9.initialClientState (pre ++ [de])).wsClosed = true) ∧
    (∀ (cmds : List O9.CmdRun) (infra : Option String),
      ((O9.sessionTrace cmds infra).filter O9.SEvent.isTerminalEv).length = 1) := by
  have hopen : (O9.deliverAll O9.initialClientState pre).wsClosed = false := by
    rw [deliverAll_nonterminal_closed pre O9.initialClientState hpre]
    rfl
  have hkey : ∀ (d : O9.WsMsg) (tail : List O9.WsMsg),
      (O9.onMessage (O9.deliverAll O9.initialClientState pre) d).wsClosed = true →
      O9.deliverAll O9.initialClientState (pre ++ d :: tail) =
        O9.onMessage (O9.deliverAll O9.initialClientState pre) d := by
    intro d tail hcl
    rw [deliverAll_append pre (d :: tail) O9.initialClientState]
    rw [show O9.deliverAll (O9.deliverAll O9.initialClientState pre) (d :: tail)
        = O9.deliverAll (O9.onMessage (O9.deliverAll O9.initialClientState pre) d) tail from by
      simp [O9.deliverAll, hopen]]
    exact deliverAll_of_closed _ tail hcl
  have hcompleteSt := onMessage_complete_eq (O9.deliverAll O9.initialClientState pre) dc hc
  have herrorSt := onMessage_error_eq (O9.deliverAll O9.initialClientState pre) de he
  have hclC : (O9.onMessage (O9.deliverAll O9.initialClientState pre) dc).wsClosed = true := by
    rw [hcompleteSt]
  have hclE : (O9.onMessage (O9.deliverAll O9.initialClientState pre) de).wsClosed = true := by
    rw [herrorSt]
  have hmainC := hkey dc post hclC
  have hsingC := hkey dc [] hclC
  have hmainE := hkey de post hclE
  have hsingE := hkey de [] hclE
  refine ⟨⟨?_, ?_, ?_, ?_, ?_⟩, ⟨?_, ?_, ?_, ?_, ?_⟩, ?_⟩
  · rw [hmainC, hsingC]
  · rw [hsingC, hcompleteSt]
  · rw [hsingC, hcompleteSt]
  · rw [hsingC, hcompleteSt]
  · rw [hsingC, hcompleteSt]
  · rw [hmainE, hsingE]
  · rw [hsingE, herrorSt]
  · rw [hsingE, herrorSt]
  · rw [hsingE, herrorSt]
  · rw [hsingE, herrorSt]
  · intro cmds infra
    have h4 := (emitRun_spec cmds 0).2.2.2.1
    unfold O9.sessionTrace
    rw [List.filter_append]
    have hnil : (O9.emitRun 0 cmds).1.filter O9.SEvent.isTerminalEv = [] := by
      rw [List.filter_eq_nil_iff]
      intro a ha
      simp [h4 a ha]
    rw [hnil]
    simp [List.filter, sessionTerminal_isTerminal cmds infra]

/-- Witness for C2: with a status update before it, a complete terminal
message ends processing — the trailing progress message is ignored. -/
theorem terminal_event_client_semantics_witness :
    O9.deliverAll O9.initialClientState
        ([⟨"status_update", some "running", none, none, none, none⟩] ++
          ⟨"execution_complete", some "passed", none, none, none, none⟩ ::
            [⟨"progress", none, some "late", none, none, none⟩]) =
      O9.deliverAll O9.initialClientState
        ([⟨"status_update", some "running", none, none, none, none⟩] ++
          [⟨"execution_complete", some "passed", none, none, none, none⟩]) :=
  (terminal_event_client_semantics
    [⟨"status_update", some "running", none, none, none, none⟩]
    [⟨"progress", none, some "late", none, none, none⟩]
    ⟨"execution_complete", some "passed", none, none, none, none⟩
    ⟨"execution_error", some "boom", none, none, none, none⟩
    (by decide) rfl rfl).1.1

/-- Counterexample for C4: a progress message whose message field is present
but empty displays the action text, not the message field — the handler falls
back on emptiness, not only on absence. -/
theorem progressText_empty_message_cex :
    O9.progressText (some "") (some "Waiting for element") = "Waiting for element" ∧
      O9.claimedProgressText (some "") (some "Waiting for element") = "" ∧
      O9.progressText (some "") (some "Waiting for element") ≠
        O9.claimedProgressText (some "") (some "Waiting for element") := by
  refine ⟨by decide, rfl, by decide⟩

/-- Claim C4 (amended): the handler dispatches solely on the type field
among status_update, progress, screenshot, execution_complete,
execution_error (any other type is a no-op); a screenshot message's image is
rendered as a base64 PNG data URL; and a progress message displays its
message field when that is present and non-empty, else its action field when
that is present and non-empty, else the empty string. -/
theorem onMessage_dispatch_characterised :
    (∀ (st : O9.ClientState) (d : O9.WsMsg),
      d.type ∉ ["status_update", "progress", "screenshot",
        "execution_complete", "execution_error"] →
      O9.onMessage st d = st) ∧
    (∀ (st : O9.ClientState) (d : O9.WsMsg), d.type = "status_update" →
      O9.onMessage st d = { st with statusReports := st.statusReports ++ [d.status] }) ∧
    (∀ (st : O9.ClientState) (d : O9.WsMsg), d.type = "screenshot" →
      (O9.onMessage st d).screenshotSrc =
        some ("data:image/png;base64," ++ O9.jsInterp d.image)) ∧
    (∀ (st : O9.ClientState) (d : O9.WsMsg), d.type = "progress" →
      (O9.onMessage st d).progressMsg = O9.progressText d.message d.action) ∧
    (∀ m a : Option String, O9.truthy m = true →
      O9.progressText m a = O9.jsInterp m) ∧
    (∀ m a : Option String, O9.truthy m = false → O9.truthy a = true →
      O9.progressText m a = O9.jsInterp a) ∧
    (∀ m a : Option String, O9.truthy m = false → O9.truthy a = false →
      O9.progressText m a = "") := by
  refine ⟨?_, ?_, ?_, ?_, ?_, ?_, ?_⟩
  · intro st d hd
    simp only [List.mem_cons, List.not_mem_nil, or_false, not_or] at hd
    obtain ⟨h1, h2, h3, h4, h5⟩ := hd
    have e1 : (d.type == "status_update") = false := beq_eq_false_iff_ne.mpr h1
    have e2 : (d.type == "progress") = false := beq_eq_false_iff_ne.mpr h2
    have e3 : (d.type == "screenshot") = false := beq_eq_false_iff_ne.mpr h3
    have e4 : (d.type == "execution_complete") = false := beq_eq_false_iff_ne.mpr h4
    have e5 : (d.type == "execution_error") = false := beq_eq_false_iff_ne.mpr h5
    simp only [O9.onMessage, e1, e2, e3, e4, e5, Bool.false_eq_true, if_false]
  · intro st d hd
    unfold O9.onMessage
    rw [hd]
    simp
  · intro st d hd
    unfold O9.onMessage
    rw [hd]
    simp
  · intro st d hd
    unfold O9.onMessage
    rw [hd]
    simp
  · intro m a hm
    unfold O9.progressText
    rw [hm]
    simp
  · intro m a hm ha
    unfold O9.progressText
    rw [hm, ha]
    simp
  · intro m a hm ha
    unfold O9.progressText
    rw [hm, ha]
    simp

/-- Witness for C4 (amended): an unknown message type is a no-op, and an
empty message field falls back to the action text. -/
theorem onMessage_dispatch_characterised_witness :
    O9.onMessage O9.initialClientState ⟨"bogus", none, none, none, none, none⟩ =
        O9.initialClientState ∧
      O9.progressText (some "") (some "Typing user") = "Typing user" :=
  ⟨onMessage_dispatch_characterised.1 O9.initialClientState
      ⟨"bogus", none, none, none, none, none⟩ (by decide),
    (onMessage_dispatch_characterised.2.2.2.2.2.1 (some "") (some "Typing user")
      (by decide) (by decide)).trans rfl⟩

/-- Counterexample for C5: at a concrete step, the client sends no message
at all over the run socket — in particular no execute_step request message. -/
theorem runStep_sends_no_message_cex :
    ¬ ∃ m, m ∈ (O9.handleRunStepConnection "ws:" "localhost:8000"
        { id := 5, step_number := 2 }).sentMessages := by
  rintro ⟨m, hm⟩
  exact absurd hm (List.not_mem_nil m)

/-- Claim C5 (amended): to run one step the client opens a WebSocket whose
URL path carries the step id (and sends no request message over it), and the
server runs the target with the login-step commands prepended exactly when
the target is not the login step (step 1). -/
theorem executeStep_request_shape :
    (∀ (protocol host : String) (step : O9.Step),
      (O9.handleRunStepConnection protocol host step).url =
        protocol ++ "//" ++ host ++ "/ws/execute-step/" ++ toString step.id ∧
      (O9.handleRunStepConnection protocol host step).sentMessages = []) ∧
    (∀ (login target : List O9.CmdRun) (n : Int), n ≠ 1 →
      O9.effectiveCommands login target n = login ++ target) ∧
    (∀ (login target : List O9.CmdRun),
      O9.effectiveCommands login target 1 = target) := by
  refine ⟨fun protocol host step => ⟨rfl, rfl⟩, ?_, fun login target => rfl⟩
  intro login target n hn
  unfold O9.effectiveCommands
  simp [hn]

/-- Witness for C5 (amended): a non-login step (step 2) gets the login
commands prepended. -/
theorem executeStep_request_shape_witness :
    O9.effectiveCommands [⟨"login", true, none⟩] [⟨"click", true, none⟩] 2 =
      [⟨"login", true, none⟩, ⟨"click", true, none⟩] :=
  executeStep_request_shape.2.1 [⟨"login", true, none⟩] [⟨"click", true, none⟩] 2
    (by decide)

/-- Claim C1: a stored payload containing a source-code indicator fails
validation with a ValidationError before any driver call is made (the driver
trace stays empty); and on the client side a step can be run only when
selenium_script_json is present and non-empty, with the run request carrying
only the step id and never any script text. -/
theorem codeMarker_blocks_execution (raw : String)
    (h : O9.containsCodeMarker raw = true) :
    O9.executeStepServer raw = (.error .validationError, []) ∧
    (∀ step : O9.Step, O9.runButtonVisible step = true ↔
      ∃ s, step.selenium_script_json = some s ∧ s ≠ "") ∧
    (∀ (protocol host : String) (step : O9.Step),
      (O9.handleRunStepConnection protocol host step).sentMessages = []) := by
  refine ⟨?_, ?_, fun _ _ _ => rfl⟩
  · unfold O9.executeStepServer O9.validateScriptJson
    rw [h]
    simp
  · intro step
    unfold O9.runButtonVisible O9.truthy
    cases hj : step.selenium_script_json with
    | none => simp
    | some s => simp

/-- Witness for C1: the literal Python text def run(): is rejected with a
ValidationError and an empty driver trace. -/
theorem codeMarker_blocks_execution_witness :
    O9.containsCodeMarker "def run():" = true ∧
      O9.executeStepServer "def run():" = (.error .validationError, []) :=
  ⟨by decide, (codeMarker_blocks_execution "def run():" (by decide)).1⟩

theorem prun_append (a b : List Char) (st : O9.PState) :
    O9.prun st (a ++ b) = (O9.prun st a).bind (fun st' => O9.prun st' b) := by
  induction a generalizing st with
  | nil => rfl
  | cons c t ih =>
    rw [List.cons_append]
    show (O9.pstep st c).bind (fun st' => O9.prun st' (t ++ b)) = _
    cases h : O9.pstep st c with
    | none => simp [O9.prun, h]
    | some st' =>
      simp only [Option.bind_some, O9.prun, h]
      exact ih st'

theorem prun_key (cs : List Char) (acc : List O9.JCommand)
    (fields : List (String × String)) (buf : List Char) (rest : List Char) :
    O9.prun (.inKey acc fields buf) (O9.escapeChars cs ++ '"' :: rest) =
      O9.prun (.afterKey acc fields (buf ++ cs)) rest := by
  induction cs generalizing buf with
  | nil => simp [O9.escapeChars, O9.prun, O9.pstep]
  | cons c t ih =>
    have hstep : ∀ rest' : List Char,
        O9.prun (.inKey acc fields buf) (O9.escChar c ++ rest') =
          O9.prun (.inKey acc fields (buf ++ [c])) rest' := by
      intro rest'
      by_cases h1 : c = '"'
      · subst h1
        simp [O9.escChar, O9.prun, O9.pstep, O9.unescapeChar]
      · by_cases h2 : c = '\\'
        · subst h2
          simp [O9.escChar, O9.prun, O9.pstep, O9.unescapeChar]
        · by_cases h3 : c = '\n'
          · subst h3
            simp [O9.escChar, O9.prun, O9.pstep, O9.unescapeChar]
          · by_cases h4 : c = '\t'
            · subst h4
              simp [O9.escChar, O9.prun, O9.pstep, O9.unescapeChar]
            · by_cases h5 : c = '\r'
              · subst h5
                simp [O9.escChar, O9.prun, O9.pstep, O9.unescapeChar]
              · simp [O9.escChar, h1, h2, h3, h4, h5, O9.prun, O9.pstep]
    calc O9.prun (.inKey acc fields buf) (O9.escapeChars (c :: t) ++ '"' :: rest)
        = O9.prun (.inKey acc fields buf)
            (O9.escChar c ++ (O9.escapeChars t ++ '"' :: rest)) := by
          rw [show O9.escapeChars (c :: t) = O9.escChar c ++ O9.escapeChars t from rfl,
            List.append_assoc]
      _ = O9.prun (.inKey acc fields (buf ++ [c])) (O9.escapeChars t ++ '"' :: rest) :=
          hstep _
      _ = O9.prun (.afterKey acc fields ((buf ++ [c]) ++ t)) rest := ih (buf ++ [c])
      _ = O9.prun (.afterKey acc fields (buf ++ c :: t)) rest := by
          simp

theorem prun_step (st st' : O9.PState) (c : Char) (h : O9.pstep st c = some st')
    (l : List Char) : O9.prun st (c :: l) = O9.prun st' l := by
  simp [O9.prun, h]

theorem prun_value (cs : List Char) (acc : List O9.JCommand)
    (fields : List (String × String)) (key : List Char) (buf : List Char)
    (rest : List Char) :
    O9.prun (.inValue acc fields key buf) (O9.escapeChars cs ++ '"' :: rest) =
      O9.prun (.afterMember acc
        (fields ++ [(String.mk key, String.mk (buf ++ cs))])) rest := by
  induction cs generalizing buf with
  | nil => simp [O9.escapeChars, O9.prun, O9.pstep]
  | cons c t ih =>
    have hstep : ∀ rest' : List Char,
        O9.prun (.inValue acc fields key buf) (O9.escChar c ++ rest') =
          O9.prun (.inValue acc fields key (buf ++ [c])) rest' := by
      intro rest'
      by_cases h1 : c = '"'
      · subst h1
        simp [O9.escChar, O9.prun, O9.pstep, O9.unescapeChar]
      · by_cases h2 : c = '\\'
        · subst h2
          simp [O9.escChar, O9.prun, O9.pstep, O9.unescapeChar]
        · by_cases h3 : c = '\n'
          · subst h3
            simp [O9.escChar, O9.prun, O9.pstep, O9.unescapeChar]
          · by_cases h4 : c = '\t'
            · subst h4
              simp [O9.escChar, O9.prun, O9.pstep, O9.unescapeChar]
            · by_cases h5 : c = '\r'
              · subst h5
                simp [O9.escChar, O9.prun, O9.pstep, O9.unescapeChar]
              · simp [O9.escChar, h1, h2, h3, h4, h5, O9.prun, O9.pstep]
    calc O9.prun (.inValue acc fields key buf) (O9.escapeChars (c :: t) ++ '"' :: rest)
        = O9.prun (.inValue acc fields key buf)
            (O9.escChar c ++ (O9.escapeChars t ++ '"' :: rest)) := by
          rw [show O9.escapeChars (c :: t) = O9.escChar c ++ O9.escapeChars t from rfl,
            List.append_assoc]
      _ = O9.prun (.inValue acc fields key (buf ++ [c]))
            (O9.escapeChars t ++ '"' :: rest) := hstep _
      _ = O9.prun (.afterMember acc
            (fields ++ [(String.mk key, String.mk ((buf ++ [c]) ++ t))])) rest :=
          ih (buf ++ [c])
      _ = O9.prun (.afterMember acc
            (fields ++ [(String.mk key, String.mk (buf ++ c :: t))])) rest := by
          simp

theorem prun_member (f : String × String) (acc : List O9.JCommand)
    (fields : List (String × String)) (b : Bool) (rest : List Char) :
    O9.prun (.memberStart acc fields b) ((O9.renderMember f).data ++ rest) =
      O9.prun (.afterMember acc (fields ++ [f])) rest := by
  obtain ⟨k, v⟩ := f
  have d1 : ("    " : String).data = [' ', ' ', ' ', ' '] := rfl
  have d2 : (": " : String).data = [':', ' '] := rfl
  have d3 : ("\"" : String).data = ['"'] := rfl
  have hsplit : (O9.renderMember (k, v)).data ++ rest =
      ' ' :: ' ' :: ' ' :: ' ' :: '"' ::
        (O9.escapeChars k.data ++ '"' :: ':' :: ' ' :: '"' ::
          (O9.escapeChars v.data ++ '"' :: rest)) := by
    simp [O9.renderMember, O9.quoteStr, String.data_append, d1, d2, d3]
  rw [hsplit]
  rw [prun_step (.memberStart acc fields b) (.memberStart acc fields b) ' ' rfl,
    prun_step (.memberStart acc fields b) (.memberStart acc fields b) ' ' rfl,
    prun_step (.memberStart acc fields b) (.memberStart acc fields b) ' ' rfl,
    prun_step (.memberStart acc fields b) (.memberStart acc fields b) ' ' rfl,
    prun_step (.memberStart acc fields b) (.inKey acc fields []) '"' rfl]
  rw [prun_key k.data acc fields []]
  simp only [List.nil_append]
  rw [prun_step (.afterKey acc fields k.data) (.beforeValue acc fields k.data) ':' rfl,
    prun_step (.beforeValue acc fields k.data) (.beforeValue acc fields k.data) ' ' rfl,
    prun_step (.beforeValue acc fields k.data) (.inValue acc fields k.data []) '"' rfl]
  rw [prun_value v.data acc fields k.data []]
  simp only [List.nil_append]

theorem prun_members (fs : List (String × String)) (f : String × String)
    (acc : List O9.JCommand) (done : List (String × String)) (b : Bool)
    (rest : List Char) :
    O9.prun (.memberStart acc done b)
        ((O9.joinComma ((f :: fs).map O9.renderMember)).data ++ rest) =
      O9.prun (.afterMember acc (done ++ f :: fs)) rest := by
  induction fs generalizing f done b with
  | nil =>
    rw [show O9.joinComma ([f].map O9.renderMember) = O9.renderMember f from rfl]
    rw [prun_member f acc done b rest]
  | cons f2 t ih =>
    have dsep : (",\n" : String).data = [',', '\n'] := rfl
    have hsplit : (O9.joinComma ((f :: f2 :: t).map O9.renderMember)).data ++ rest =
        (O9.renderMember f).data ++
          (',' :: '\n' ::
            ((O9.joinComma ((f2 :: t).map O9.renderMember)).data ++ rest)) := by
      simp [O9.joinComma, String.data_append, dsep]
    rw [hsplit]
    rw [prun_member f acc done b]
    rw [prun_step (.afterMember acc (done ++ [f]))
      (.memberStart acc (done ++ [f]) false) ',' rfl]
    rw [prun_step (.memberStart acc (done ++ [f]) false)
      (.memberStart acc (done ++ [f]) false) '\n' rfl]
    rw [ih f2 (done ++ [f]) false]
    simp

theorem prun_element (c : O9.JCommand) (acc : List O9.JCommand) (b : Bool)
    (rest : List Char) :
    O9.prun (.elemStart acc b) ((O9.renderCommand c).data ++ rest) =
      O9.prun (.afterElem (acc ++ [c])) rest := by
  cases c with
  | nil =>
    have hsplit : (O9.renderCommand []).data ++ rest =
        ' ' :: ' ' :: O9.lbrace :: O9.rbrace :: rest := by
      simp [O9.renderCommand, String.data_append]
    rw [hsplit]
    rw [prun_step (.elemStart acc b) (.elemStart acc b) ' ' rfl,
      prun_step (.elemStart acc b) (.elemStart acc b) ' ' rfl,
      prun_step (.elemStart acc b) (.memberStart acc [] true) O9.lbrace rfl,
      prun_step (.memberStart acc [] true) (.afterElem (acc ++ [[]])) O9.rbrace rfl]
  | cons f fs =>
    have hsplit : (O9.renderCommand (f :: fs)).data ++ rest =
        ' ' :: ' ' :: O9.lbrace :: '\n' ::
          ((O9.joinComma ((f :: fs).map O9.renderMember)).data ++
            ('\n' :: ' ' :: ' ' :: O9.rbrace :: rest)) := by
      simp [O9.renderCommand, String.data_append]
    rw [hsplit]
    rw [prun_step (.elemStart acc b) (.elemStart acc b) ' ' rfl,
      prun_step (.elemStart acc b) (.elemStart acc b) ' ' rfl,
      prun_step (.elemStart acc b) (.memberStart acc [] true) O9.lbrace rfl,
      prun_step (.memberStart acc [] true) (.memberStart acc [] true) '\n' rfl]
    rw [prun_members fs f acc [] true]
    simp only [List.nil_append]
    rw [prun_step (.afterMember acc (f :: fs)) (.afterMember acc (f :: fs)) '\n' rfl,
      prun_step (.afterMember acc (f :: fs)) (.afterMember acc (f :: fs)) ' ' rfl,
      prun_step (.afterMember acc (f :: fs)) (.afterMember acc (f :: fs)) ' ' rfl,
      prun_step (.afterMember acc (f :: fs)) (.afterElem (acc ++ [f :: fs])) O9.rbrace rfl]

theorem prun_elements (cs : List O9.JCommand) (c : O9.JCommand)
    (acc : List O9.JCommand) (b : Bool) (rest : List Char) :
    O9.prun (.elemStart acc b)
        ((O9.joinComma ((c :: cs).map O9.renderCommand)).data ++ rest) =
      O9.prun (.afterElem (acc ++ c :: cs)) rest := by
  induction cs generalizing c acc b with
  | nil =>
    rw [show O9.joinComma ([c].map O9.renderCommand) = O9.renderCommand c from rfl]
    rw [prun_element c acc b rest]
  | cons c2 t ih =>
    have dsep : (",\n" : String).data = [',', '\n'] := rfl
    have hsplit : (O9.joinComma ((c :: c2 :: t).map O9.renderCommand)).data ++ rest =
        (O9.renderCommand c).data ++
          (',' :: '\n' ::
            ((O9.joinComma ((c2 :: t).map O9.renderCommand)).data ++ rest)) := by
      simp [O9.joinComma, String.data_append, dsep]
    rw [hsplit]
    rw [prun_element c acc b]
    rw [prun_step (.afterElem (acc ++ [c])) (.elemStart (acc ++ [c]) false) ',' rfl]
    rw [prun_step (.elemStart (acc ++ [c]) false) (.elemStart (acc ++ [c]) false) '\n' rfl]
    rw [ih c2 (acc ++ [c]) false]
    simp

theorem parse_stringify (cs : List O9.JCommand) :
    O9.parseCommands (O9.stringifyCommands cs) = some cs := by
  cases cs with
  | nil => rfl
  | cons c t =>
    unfold O9.parseCommands
    have hsplit : (O9.stringifyCommands (c :: t)).data =
        '[' :: '\n' ::
          ((O9.joinComma ((c :: t).map O9.renderCommand)).data ++ ['\n', ']']) := by
      simp [O9.stringifyCommands, String.data_append]
    rw [hsplit]
    rw [prun_step .beforeArray (.elemStart [] true) '[' rfl]
    rw [prun_step (.elemStart [] true) (.elemStart [] true) '\n' rfl]
    rw [prun_elements t c [] true ['\n', ']']]
    simp only [List.nil_append]
    rw [prun_step (.afterElem (c :: t)) (.afterElem (c :: t)) '\n' rfl]
    rw [prun_step (.afterElem (c :: t)) (.afterArray (c :: t)) ']' rfl]
    rfl

/-- Claim C8: a command array obtained by parsing a stored
selenium_script_json payload, serialized with stringify and re-parsed,
round-trips to an equal ordered sequence, element for element. -/
theorem commands_roundtrip (payload : String) (arr : List O9.JCommand)
    (_hparse : O9.parseCommands payload = some arr) :
    O9.parseCommands (O9.stringifyCommands arr) = some arr :=
  parse_stringify arr

/-- Witness for C8: a concrete stored payload parses and round-trips. -/
theorem commands_roundtrip_witness :
    O9.parseCommands "[ \x7b \"action\": \"click\", \"target\": \"#login\" \x7d ]" =
        some [[("action", "click"), ("target", "#login")]] ∧
      O9.parseCommands
          (O9.stringifyCommands [[("action", "click"), ("target", "#login")]]) =
        some [[("action", "click"), ("target", "#login")]] :=
  ⟨by decide,
    commands_roundtrip "[ \x7b \"action\": \"click\", \"target\": \"#login\" \x7d ]"
      [[("action", "click"), ("target", "#login")]] (by decide)⟩
